import Mathlib

set_option maxRecDepth 65536

/-!
Shallow embedding of the binary transaction encoders of `uplink/protocol.py`
(uplink-sdk-python). Bytes are modelled as `List Nat` (each element a byte
value), Python `int` as `Int`/`Nat`, Python `str` as `String`, Python `bytes`
as `List Nat`, and the insertion-ordered Python `dict` with distinct keys as an
association list `List (String × String)` whose key list is `Nodup`.

`uplink/enum.py` and `uplink/cryptography.py` (and the external `base58`
library) are imported by `protocol.py` but are not part of the sources; the
definitions standing in for them are marked `Modelled from the spec:` in their
doc comments.  Everything else is translated directly from `protocol.py`.

`struct.pack` with the numeric formats raises `struct.error` on an
out-of-range argument; the model reduces the value modulo the field width
instead, which agrees with Python on every in-range input (all inputs
appearing in the theorems below are in range).
-/

/-- big-endian byte list of width `w` for a value already reduced below
`2 ^ (8 * w)`. -/
def bytesBE : Nat → Nat → List Nat
  | 0, _ => []
  | w + 1, v => bytesBE w (v / 256) ++ [v % 256]

/-- struct.pack format `>H`: 2-byte big-endian unsigned field. -/
def packH (v : Nat) : List Nat := bytesBE 2 (v % 2 ^ 16)

/-- struct.pack format `>Q`: 8-byte big-endian unsigned field. -/
def packQ (v : Int) : List Nat := bytesBE 8 (v % (2 : Int) ^ 64).toNat

/-- struct.pack format `>q`: 8-byte big-endian two's-complement field. -/
def packq (v : Int) : List Nat := bytesBE 8 (v % (2 : Int) ^ 64).toNat

/-- struct.pack format `>b`: one signed byte, two's complement. -/
def packb (v : Int) : List Nat := [(v % (2 : Int) ^ 8).toNat]

/-- struct.pack format `>{n}s`: a bytes argument is truncated, or null-padded
on the right, to exactly `n` bytes. -/
def pack_s (n : Nat) (b : List Nat) : List Nat :=
  b.take n ++ List.replicate (n - b.length) 0

/-- UTF-8 encoding of one unicode scalar value, as Python `str.encode`
produces it. -/
def utf8Bytes (c : Char) : List Nat :=
  let n := c.toNat
  if n < 128 then [n]
  else if n < 2048 then [192 + n / 64, 128 + n % 64]
  else if n < 65536 then [224 + n / 4096, 128 + n / 64 % 64, 128 + n % 64]
  else [240 + n / 262144, 128 + n / 4096 % 64, 128 + n / 64 % 64, 128 + n % 64]

/-- Python `str.encode()`: the UTF-8 bytes of the string. -/
def strEncode (s : String) : List Nat := (s.data.map utf8Bytes).flatten

/-- Modelled from the spec: alphabet of the external `base58` library
(`from base58 import b58decode` in protocol.py), which is not under `src/`. -/
def b58Alphabet : List Char :=
  "123456789ABCDEFGHJKLMNPQRSTUVWXYZabcdefghijkmnopqrstuvwxyz".data

/-- value of one base58 digit, `none` for a character outside the alphabet. -/
def b58DigitVal (c : Char) : Option Nat := b58Alphabet.findIdx? (· == c)

/-- base-58 value of a digit string, `none` on an invalid character. -/
def b58decodeNatAux : List Char → Nat → Option Nat
  | [], acc => some acc
  | c :: cs, acc =>
    match b58DigitVal c with
    | none => none
    | some d => b58decodeNatAux cs (58 * acc + d)

/-- fuel-indexed big-endian byte expansion; `fuel = n + 1` always suffices. -/
def natToBytesBEAux : Nat → Nat → List Nat
  | 0, _ => []
  | fuel + 1, n => if n = 0 then [] else natToBytesBEAux fuel (n / 256) ++ [n % 256]

/-- minimal big-endian byte representation of a natural number (empty for 0). -/
def natToBytesBE (n : Nat) : List Nat := natToBytesBEAux (n + 1) n

/-- Modelled from the spec: `b58decode` of the external `base58` library; the
spec fixes the address text form as base58 text for 32 raw bytes.  Standard
base58: each leading `1` contributes one zero byte and the rest is the
big-endian representation of the base-58 value; a character outside the
alphabet makes the library raise, modelled as `none`. -/
def b58decode (s : String) : Option (List Nat) :=
  match b58decodeNatAux s.data 0 with
  | none => none
  | some v =>
    some (List.replicate (s.data.takeWhile (· == '1')).length 0 ++ natToBytesBE v)

/-- fuel-indexed base-58 digit expansion; `fuel = n + 1` always suffices. -/
def natToB58Aux : Nat → Nat → List Char
  | 0, _ => []
  | fuel + 1, n =>
    if n = 0 then [] else natToB58Aux fuel (n / 58) ++ [b58Alphabet.getD (n % 58) '1']

/-- Modelled from the spec: base58 encoding (the inverse direction of the
address text form), used only to model `derive_asset_address` producing
address text. -/
def b58encode (b : List Nat) : String :=
  let v := b.foldl (fun a x => 256 * a + x) 0
  String.mk (List.replicate (b.takeWhile (· == 0)).length '1' ++ natToB58Aux (v + 1) v)

/-- Modelled from the spec: `enum.TxTypeCreateAccount` lives in
`uplink/enum.py`, which is not under `src/`; the spec fixes only that each
transaction kind tag is a constant of a fixed private enumeration, emitted as
the leading 2-byte field.  The numeral is a stand-in; no claim depends on it. -/
def TxTypeCreateAccount : Nat := 1000

/-- Modelled from the spec: `enum.TxTypeCreateAsset`, see
`TxTypeCreateAccount`. -/
def TxTypeCreateAsset : Nat := 1001

/-- Modelled from the spec: `enum.TxTypeTransfer`, see
`TxTypeCreateAccount`. -/
def TxTypeTransfer : Nat := 1002

/-- Modelled from the spec: `enum.TxTypeBind`, see `TxTypeCreateAccount`. -/
def TxTypeBind : Nat := 1003

/-- Modelled from the spec: `enum.VTypeMsg`, the one-byte tag of the Msg value
variant; the numeral is a stand-in, no claim depends on it. -/
def VTypeMsg : Int := 7

/-- Modelled from the spec: `enum.VTypeDateTime`, the one-byte tag of the
DateTime value variant; the numeral is a stand-in, no claim depends on it. -/
def VTypeDateTime : Int := 10

/-- code-point lexicographic comparison of character lists; this is exactly
the order Python uses to compare `str` values, hence the order `sorted`
arranges metadata keys in. -/
def charListLe : List Char → List Char → Bool
  | [], _ => true
  | _ :: _, [] => false
  | a :: as, b :: bs => if a < b then true else if b < a then false else charListLe as bs

/-- Python `<=` on `str` as a relation on Lean strings. -/
def pyStrLe (a b : String) : Prop := charListLe a.data b.data = true

instance : DecidableRel pyStrLe :=
  fun a b => inferInstanceAs (Decidable (charListLe a.data b.data = true))

theorem charListLe_total : ∀ as bs : List Char, charListLe as bs = true ∨ charListLe bs as = true
  | [], _ => Or.inl rfl
  | _ :: _, [] => Or.inr rfl
  | a :: as, b :: bs => by
    rcases lt_trichotomy a b with h | h | h
    · left; simp [charListLe, h]
    · subst h
      rcases charListLe_total as bs with h' | h'
      · left; simp [charListLe, lt_irrefl, h']
      · right; simp [charListLe, lt_irrefl, h']
    · right; simp [charListLe, h]

theorem charListLe_trans : ∀ as bs cs : List Char,
    charListLe as bs = true → charListLe bs cs = true → charListLe as cs = true
  | [], _, _, _, _ => rfl
  | _ :: _, [], _, h₁, _ => by simp [charListLe] at h₁
  | _ :: _, _ :: _, [], _, h₂ => by simp [charListLe] at h₂
  | a :: as, b :: bs, c :: cs, h₁, h₂ => by
    by_cases hab : a < b
    · by_cases hbc : b < c
      · simp [charListLe, lt_trans hab hbc]
      · by_cases hcb : c < b
        · simp [charListLe, hbc, hcb] at h₂
        · have : b = c := le_antisymm (not_lt.mp hcb) (not_lt.mp hbc)
          subst this
          simp [charListLe, hab]
    · by_cases hba : b < a
      · simp [charListLe, hab, hba] at h₁
      · have hab' : a = b := le_antisymm (not_lt.mp hba) (not_lt.mp hab)
        subst hab'
        simp only [charListLe, if_neg (lt_irrefl a)] at h₁
        by_cases hac : a < c
        · simp [charListLe, hac]
        · by_cases hca : c < a
          · simp [charListLe, hac, hca] at h₂
          · have : a = c := le_antisymm (not_lt.mp hca) (not_lt.mp hac)
            subst this
            simp only [charListLe, if_neg (lt_irrefl a)] at h₂ ⊢
            exact charListLe_trans as bs cs h₁ h₂

theorem charListLe_antisymm : ∀ as bs : List Char,
    charListLe as bs = true → charListLe bs as = true → as = bs
  | [], [], _, _ => rfl
  | [], _ :: _, _, h₂ => by simp [charListLe] at h₂
  | _ :: _, [], h₁, _ => by simp [charListLe] at h₁
  | a :: as, b :: bs, h₁, h₂ => by
    by_cases hab : a < b
    · simp [charListLe, hab, lt_asymm hab] at h₂
    · by_cases hba : b < a
      · simp [charListLe, hab, hba] at h₁
      · have hab' : a = b := le_antisymm (not_lt.mp hba) (not_lt.mp hab)
        subst hab'
        simp only [charListLe, if_neg (lt_irrefl a)] at h₁ h₂
        exact congrArg (a :: ·) (charListLe_antisymm as bs h₁ h₂)

instance : IsTotal String pyStrLe := ⟨fun a b => charListLe_total a.data b.data⟩

instance : IsTrans String pyStrLe :=
  ⟨fun a b c h₁ h₂ => charListLe_trans a.data b.data c.data h₁ h₂⟩

instance : IsAntisymm String pyStrLe :=
  ⟨fun a b h₁ h₂ => by
    cases a; cases b
    exact congrArg String.mk (charListLe_antisymm _ _ h₁ h₂)⟩

/-- Modelled from the spec: `enum.AssetFractional` lives in `uplink/enum.py`,
which is not under `src/`.  The Fractional validation branch of
`AssetType.__init__` is reachable (the spec's scenario 3 exercises it), and
the guard compares `self.type`, one of the three kind names, against it, so it
is the string Fractional. -/
def AssetFractional : String := "Fractional"

/-- AssetType instance as built by `AssetType.__init__` (protocol.py:182-205):
attributes `type` and `precision`. -/
structure AssetType where
  type : String
  precision : Option Int
deriving DecidableEq

/-- the three `ValueError` messages `AssetType.__init__` can raise. -/
inductive AssetTypeError
  | invalidPrecision
  | precisionNotAllowed
  | invalidAssetType (t : String)
deriving DecidableEq

/-- AssetType.__init__ (protocol.py:185-205), on a dict with entries `type`
and `precision`.  `asset_type['precision'] in [x for x in range(1, 7)]` is
false for `None` and for any integer outside 1..6; `precision or None` is the
precision itself since 0 is not in the range.  The three `raise ValueError`
statements become the three error values. -/
def AssetType.init (asset_type : String) (precision : Option Int) :
    Except AssetTypeError AssetType :=
  if asset_type ∈ ["Fractional", "Discrete", "Binary"] then
    if asset_type = AssetFractional then
      match precision with
      | some p =>
        if ([1, 2, 3, 4, 5, 6] : List Int).contains p then
          Except.ok ⟨asset_type, some p⟩
        else
          Except.error AssetTypeError.invalidPrecision
      | none => Except.error AssetTypeError.invalidPrecision
    else
      match precision with
      | some _ => Except.error AssetTypeError.precisionNotAllowed
      | none => Except.ok ⟨asset_type, none⟩
  else
    Except.error (AssetTypeError.invalidAssetType asset_type)

/-- AssetType.to_binary (protocol.py:207-213): `struct.pack(">H{n}s", n, type)`
with `n = len(self.type)` (the character count), then an 8-byte signed
precision field when `self.precision` is not `None`. -/
def AssetType.to_binary (self : AssetType) : List Nat :=
  let typ := packH self.type.length ++ pack_s self.type.length (strEncode self.type)
  let mprec := match self.precision with
    | none => []
    | some p => packq p
  typ ++ mprec

/-- attribute lookup on a Python instance modelled as its attribute
dictionary; a missing attribute raises `AttributeError`. -/
def getattr (obj : List (String × String)) (attrName : String) : Except String String :=
  match obj.lookup attrName with
  | some v => Except.ok v
  | none => Except.error ("AttributeError: " ++ attrName)

/-- AssetRef.__init__ (protocol.py:219-223): accepts the six recognized
references and stores the single attribute `ref`; no attribute named `type`
is ever assigned. -/
def AssetRef.init (asset_ref : String) : Except String (List (String × String)) :=
  if asset_ref ∈ ["USD", "GBP", "EUR", "CHF", "Token", "Security"] then
    Except.ok [("ref", asset_ref)]
  else
    Except.error (asset_ref ++ "is not a valid asset reference")

/-- AssetRef.to_binary (protocol.py:225-228): the first statement evaluates
`len(self.type)`, reading the attribute `type` before any byte is packed;
were that read to succeed, the next statement would still raise struct.error,
because the two-field format is packed with a single argument. -/
def AssetRef.to_binary (self : List (String × String)) : Except String (List Nat) := do
  let _t ← getattr self "type"
  let _r ← getattr self "ref"
  Except.error "struct.error: pack expected 2 items for packing"

/-- VMsg.to_binary (protocol.py:275-276): `struct.pack` of the msg tag, a
2-byte field holding `len(self.contents)` — the character count of the Python
str — and the UTF-8 bytes of the contents truncated or null-padded to that
same character count. -/
def VMsg.to_binary (contents : String) : List Nat :=
  packb VTypeMsg ++ packH contents.length ++ pack_s contents.length (strEncode contents)

/-- the fields `VDateTime.to_binary` reads from its `datetime.datetime`
contents; `tzinfo` is `None` for a naive datetime and a `datetime.tzinfo`
object (carrying its offset data) for an aware one — in neither case an
integer. -/
structure PyDateTime where
  year : Nat
  month : Nat
  day : Nat
  hour : Nat
  minute : Nat
  second : Nat
  microsecond : Nat
  tzinfo : Option Int

/-- one Python argument handed to `struct.pack`. -/
inductive PyObj
  | pyInt (n : Nat)
  | pyNone
  | pyTzinfo (offset : Int)

/-- struct.pack format `Q` applied to one Python argument: requires an integer
in `[0, 2^64)`; `None` or a `tzinfo` object raises struct.error. -/
def packQ_arg : PyObj → Except String (List Nat)
  | PyObj.pyInt n =>
    if n < 2 ^ 64 then Except.ok (bytesBE 8 n) else Except.error "argument out of range"
  | _ => Except.error "required argument is not an integer"

/-- `datetime.date(year, month, day).weekday()`: Monday is 0.  Sakamoto's
formula computes the Gregorian day of week (Sunday as 0), shifted so Monday
is 0. -/
def weekdayMon0 (y m d : Nat) : Nat :=
  let t := [0, 3, 2, 5, 0, 3, 5, 1, 4, 6, 2, 4]
  let y := if m < 3 then y - 1 else y
  (y + y / 4 + y / 400 + t.getD (m - 1) 0 + d + 6 - y / 100) % 7

/-- VDateTime.to_binary (protocol.py:290-300): reads the calendar fields and
`tzinfo` of the contents, computes the weekday, and packs
`>bQQQQQQQQ` — the tag and eight unsigned 8-byte fields — where the seventh
`Q` argument is the `tzinfo` attribute itself. -/
def VDateTime.to_binary (contents : PyDateTime) : Except String (List Nat) := do
  let year := contents.year
  let month := contents.month
  let day := contents.day
  let hour := contents.hour
  let minute := contents.minute
  let second := contents.second
  let tz : PyObj := match contents.tzinfo with
    | none => PyObj.pyNone
    | some off => PyObj.pyTzinfo off
  let dayofweek := weekdayMon0 year month day
  let b0 := packb VTypeDateTime
  let b1 ← packQ_arg (PyObj.pyInt year)
  let b2 ← packQ_arg (PyObj.pyInt month)
  let b3 ← packQ_arg (PyObj.pyInt day)
  let b4 ← packQ_arg (PyObj.pyInt hour)
  let b5 ← packQ_arg (PyObj.pyInt minute)
  let b6 ← packQ_arg (PyObj.pyInt second)
  let b7 ← packQ_arg tz
  let b8 ← packQ_arg (PyObj.pyInt dayofweek)
  pure (b0 ++ b1 ++ b2 ++ b3 ++ b4 ++ b5 ++ b6 ++ b7 ++ b8)

/-- CreateAccountHeader as built by its `__init__` (protocol.py:405-410):
`pubKey` is a Python bytes value, `timezone` a str, `metadata` a dict (the
`address` parameter is dropped; the assignment is commented out in the
source).  The dict is modelled as its insertion-ordered entry list, whose key
list is `Nodup`. -/
structure CreateAccountHeader where
  pubKey : List Nat
  timezone : String
  metadata : List (String × String)

/-- `sorted(six.iterkeys(self.metadata))` (protocol.py:431): the metadata keys
in ascending code-point lexicographic order.  Python `sorted` returns the
unique sorted permutation: `pyStrLe` is total, transitive and antisymmetric,
so any sorting algorithm yields this list. -/
def sortedKeys (metadata : List (String × String)) : List String :=
  List.insertionSort pyStrLe (metadata.map Prod.fst)

/-- body of the metadata loop (protocol.py:431-443): one entry packed as
`>H{len(key)}sH{len(value)}s` with the char-count lengths and UTF-8 bytes. -/
def metaEntry (key value : String) : List Nat :=
  packH key.length ++ pack_s key.length (strEncode key)
    ++ packH value.length ++ pack_s value.length (strEncode value)

/-- CreateAccountHeader.to_binary (protocol.py:412-453): tag, length-prefixed
public key bytes, length-prefixed UTF-8 timezone; then, when the metadata is
nonempty, a 2-byte entry count followed by the entries keyed in sorted order
(each value looked up in the dict), and otherwise a 2-byte zero count. -/
def CreateAccountHeader.to_binary (self : CreateAccountHeader) : List Nat :=
  let pubkey_len := self.pubKey.length
  let timezone_len := self.timezone.length
  let head := packH TxTypeCreateAccount ++ packH pubkey_len ++ pack_s pubkey_len self.pubKey
    ++ packH timezone_len ++ pack_s timezone_len (strEncode self.timezone)
  if 0 < self.metadata.length then
    head ++ packH self.metadata.length
      ++ ((sortedKeys self.metadata).map
            (fun key => metaEntry key ((self.metadata.lookup key).getD ""))).flatten
  else
    head ++ packH 0

/-- AssetTypeParams as built by its `__init__` (protocol.py:522-527):
`tag = type_.encode()` (a bytes value), `contents = precision`. -/
structure AssetTypeParams where
  tag : List Nat
  contents : Option Int

/-- AssetTypeParams.__init__ (protocol.py:525-527). -/
def AssetTypeParams.init (type_ : String) (precision : Option Int) : AssetTypeParams :=
  ⟨strEncode type_, precision⟩

/-- Modelled from the spec: `derive_asset_address` is defined in
`uplink/cryptography.py`, which is not under `src/`.  The spec fixes only that
it is a deterministic pure function of (name, issuer, supply, reference,
asset type) whose result is the base58 text of a 32-byte content-derived
address; the ledger's real digest is an external versioned contract, so a
deterministic stand-in mixing function is used here. -/
def derive_asset_address (name : String) (issuer : String) (supply : Int)
    (reference : String) (assetType : AssetType) : String :=
  let payload := strEncode name ++ strEncode issuer ++ packq supply
      ++ strEncode reference ++ AssetType.to_binary assetType
  let digest := payload.foldl (fun a b => (a * 1099511628211 + b + 1) % 2 ^ 256) 14695981039346656037
  b58encode (pack_s 32 (natToBytesBE digest))

/-- CreateAssetHeader as built by its `__init__` (protocol.py:472-480): the
derived address text, the name, `int(supply)`, the issuer, `str(reference)`,
and the `AssetTypeParams` value. -/
structure CreateAssetHeader where
  assetAddr : String
  assetName : String
  supply : Int
  issuer : String
  reference : String
  assetType : AssetTypeParams

/-- CreateAssetHeader.__init__ (protocol.py:472-480): validates by
constructing `AssetType` (which can raise), then derives the asset address
and stores the fields. -/
def CreateAssetHeader.init (name : String) (supply : Int) (asset_type : String)
    (reference : String) (issuer : String) (precision : Option Int) :
    Except AssetTypeError CreateAssetHeader := do
  let asset_type_ ← AssetType.init asset_type precision
  pure { assetAddr := derive_asset_address name issuer supply reference asset_type_
         assetName := name
         supply := supply
         issuer := issuer
         reference := reference
         assetType := AssetTypeParams.init asset_type precision }

/-- Python 3 `==` between a bytes value and a str value: cross-type equality
between `bytes` and `str` is always `False` in Python 3 (no implicit
decoding).  This models the guard `_asset_type == 'Fractional'` at
protocol.py:489, where `_asset_type = bytes(self.assetType.tag)` is bytes. -/
def pyEqBytesStr (_bytesVal : List Nat) (_strVal : String) : Bool := false

/-- CreateAssetHeader.to_binary (protocol.py:482-519): tag, the base58-decoded
asset address as a 32-byte field, length-prefixed name, 8-byte unsigned
supply, the constant 1, length-prefixed reference, length-prefixed asset-type
tag bytes; the branch appending the 8-byte precision is guarded by
`_asset_type == 'Fractional'`. -/
def CreateAssetHeader.to_binary (self : CreateAssetHeader) : Option (List Nat) := do
  let precision := self.assetType.contents
  let asset_type_bytes := self.assetType.tag
  let addr ← b58decode self.assetAddr
  if pyEqBytesStr asset_type_bytes "Fractional" then
    let p ← precision
    pure (packH TxTypeCreateAsset ++ pack_s 32 addr
      ++ packH self.assetName.length ++ pack_s self.assetName.length (strEncode self.assetName)
      ++ packQ self.supply ++ packH 1
      ++ packH self.reference.length ++ pack_s self.reference.length (strEncode self.reference)
      ++ packH asset_type_bytes.length ++ pack_s asset_type_bytes.length asset_type_bytes
      ++ packQ p)
  else
    pure (packH TxTypeCreateAsset ++ pack_s 32 addr
      ++ packH self.assetName.length ++ pack_s self.assetName.length (strEncode self.assetName)
      ++ packQ self.supply ++ packH 1
      ++ packH self.reference.length ++ pack_s self.reference.length (strEncode self.reference)
      ++ packH asset_type_bytes.length ++ pack_s asset_type_bytes.length asset_type_bytes)

/-- TransferAssetHeader as built by its `__init__` (protocol.py:623-626). -/
structure TransferAssetHeader where
  assetAddr : String
  toAddr : String
  balance : Int

/-- TransferAssetHeader.to_binary (protocol.py:628-631):
`struct.pack(">H32s32sq", tag, b58decode(assetAddr), b58decode(toAddr),
balance)`. -/
def TransferAssetHeader.to_binary (self : TransferAssetHeader) : Option (List Nat) := do
  let assetAddr ← b58decode self.assetAddr
  let toAddr ← b58decode self.toAddr
  pure (packH TxTypeTransfer ++ pack_s 32 assetAddr ++ pack_s 32 toAddr ++ packq self.balance)

/-- BindHeader as built by its `__init__` (protocol.py:754-757). -/
structure BindHeader where
  asset : String
  contract : String
  proofBytes : List Nat

/-- BindHeader.to_binary (protocol.py:759-765):
`struct.pack(">H32s32s{len(proof)}s", tag, self.contract.encode(),
self.asset.encode(), self.proof)` — the two address fields are the UTF-8
bytes of the base58 text (truncated or null-padded to 32), not base58-decoded
raw bytes. -/
def BindHeader.to_binary (self : BindHeader) : List Nat :=
  packH TxTypeBind ++ pack_s 32 (strEncode self.contract) ++ pack_s 32 (strEncode self.asset)
    ++ pack_s self.proofBytes.length self.proofBytes

/-- Modelled from the spec: `ecdsa_sign` is defined in
`uplink/cryptography.py`, which is not under `src/`.  The spec fixes a
deterministic-ECDSA signer over the supplied byte stream: a caller-fixed
nonce `k` makes the signature reproducible, while omitting `k` draws the
nonce from fresh randomness, modelled by the explicit `entropy` argument;
the arithmetic below is a deterministic stand-in for the real curve
operations. -/
def ecdsa_sign (privkey : Nat) (stream : List Nat) (k : Option Nat) (entropy : Nat) :
    Nat × Nat :=
  let nonce := match k with
    | some n => n
    | none => entropy
  (nonce % 1000003,
   (stream.foldl (fun a b => (a * 257 + b) % 1000003) 0 + privkey * nonce + nonce * nonce)
     % 1000003)

/-- Serializable.sign (protocol.py:63-65): `stream = self.to_binary()` then
`ecdsa_sign(privkey, stream, k=k)`.  The method works uniformly over any
object with a `to_binary`, passed here as a function, and the `entropy`
argument models the randomness the signer draws only when `k` is omitted. -/
def Serializable.sign {α : Type} (to_binary : α → List Nat) (self : α)
    (privkey : Nat) (k : Option Nat) (entropy : Nat) : Nat × Nat :=
  ecdsa_sign privkey (to_binary self) k entropy

theorem bytesBE_length (w : Nat) : ∀ v, (bytesBE w v).length = w := by
  induction w with
  | zero => intro v; rfl
  | succ w ih => intro v; simp [bytesBE, ih]

theorem packq_length (v : Int) : (packq v).length = 8 := bytesBE_length 8 _

theorem packH_length (v : Nat) : (packH v).length = 2 := bytesBE_length 2 _

/-- an `Except` bind chain whose continuation always fails fails itself. -/
theorem exists_error_bind {α β : Type} (x : Except String α) (f : α → Except String β)
    (h : ∀ a, ∃ e, f a = Except.error e) : ∃ e, (x >>= f) = Except.error e := by
  cases x with
  | error e => exact ⟨e, rfl⟩
  | ok a => exact h a

/-- a lookup in a Python dict depends only on the key-value pairs, not on
their order: permuted association lists with duplicate-free keys agree on
every lookup. -/
theorem lookup_eq_of_perm_of_nodupKeys {m₁ m₂ : List (String × String)}
    (h : m₁.Perm m₂) :
    (m₁.map Prod.fst).Nodup → ∀ k, m₁.lookup k = m₂.lookup k := by
  induction h with
  | nil => exact fun _ _ => rfl
  | cons x h ih =>
    intro hnd k
    obtain ⟨a, b⟩ := x
    have hnd' : (List.map Prod.fst _).Nodup := (List.nodup_cons.mp hnd).2
    by_cases hk : (k == a) = true
    · simp [List.lookup, hk]
    · simp only [List.lookup, hk]
      exact ih hnd' k
  | swap x y l =>
    intro hnd k
    obtain ⟨a, b⟩ := x
    obtain ⟨c, d⟩ := y
    have hca : c ≠ a := by
      have := (List.nodup_cons.mp hnd).1
      simp only [List.map_cons, List.mem_cons] at this
      intro hEq
      exact this (Or.inl hEq)
    by_cases h1 : (k == c) = true
    · have hkc : k = c := eq_of_beq h1
      have h2 : (k == a) = false := by
        rw [beq_eq_false_iff_ne]
        intro hka
        exact hca (hkc ▸ hka ▸ rfl)
      simp [List.lookup, h1, h2]
    · by_cases h2 : (k == a) = true
      · simp [List.lookup, h1, h2]
      · simp [List.lookup, h1, h2]
  | trans h₁ h₂ ih₁ ih₂ =>
    intro hnd k
    exact (ih₁ hnd k).trans (ih₂ ((h₁.map Prod.fst).nodup hnd) k)

/-- C1: encoding a CreateAccount header is invariant under the insertion
order of the metadata map: for any two metadata association lists that are
permutations of each other (same key-value pairs, duplicate-free keys),
`CreateAccountHeader.to_binary` yields byte-identical output, because the
encoder iterates the keys in ascending lexicographic order. -/
theorem createAccountHeader_to_binary_metadata_perm_invariant
    (pk : List Nat) (tz : String) (m₁ m₂ : List (String × String))
    (hperm : m₁.Perm m₂) (hnd : (m₁.map Prod.fst).Nodup) :
    CreateAccountHeader.to_binary ⟨pk, tz, m₁⟩ = CreateAccountHeader.to_binary ⟨pk, tz, m₂⟩ := by
  have hlen : m₁.length = m₂.length := hperm.length_eq
  have hkeys : sortedKeys m₁ = sortedKeys m₂ := by
    refine List.eq_of_perm_of_sorted (r := pyStrLe) ?_ ?_ ?_
    · exact ((List.perm_insertionSort pyStrLe _).trans (hperm.map Prod.fst)).trans
        (List.perm_insertionSort pyStrLe _).symm
    · exact List.sorted_insertionSort pyStrLe _
    · exact List.sorted_insertionSort pyStrLe _
  have hfun : (fun key => metaEntry key ((m₁.lookup key).getD ""))
      = (fun key => metaEntry key ((m₂.lookup key).getD "")) := by
    funext k
    rw [lookup_eq_of_perm_of_nodupKeys hperm hnd k]
  simp only [CreateAccountHeader.to_binary]
  rw [hlen, hkeys, hfun]

/-- witness for C1: the spec's scenario 1 metadata supplied in both insertion
orders encodes identically. -/
theorem createAccountHeader_to_binary_metadata_perm_invariant_witness :
    CreateAccountHeader.to_binary ⟨[1], "UTC", [("b", "2"), ("a", "1")]⟩
      = CreateAccountHeader.to_binary ⟨[1], "UTC", [("a", "1"), ("b", "2")]⟩ :=
  createAccountHeader_to_binary_metadata_perm_invariant [1] "UTC"
    [("b", "2"), ("a", "1")] [("a", "1"), ("b", "2")] (by decide) (by decide)

/-- C2: a CreateAsset header for a Fractional asset type (precision 3) does
NOT end with an 8-byte precision field: the guard `_asset_type ==
'Fractional'` compares bytes with str, which is always false in Python 3, so
the record stops after the length-prefixed asset-type name (64 bytes in this
instance: 2-byte tag, 32-byte address, 2+1 name, 8 supply, 2 constant 1,
2+3 reference, 2+10 asset-type name), with precision 3 present on the header
yet never emitted. -/
theorem createAssetHeader_fractional_precision_not_emitted :
    CreateAssetHeader.init "n" 100 "Fractional" "ref" "i" (some 3)
        = Except.ok { assetAddr := "6JzvLVHGpuPCGo7jenYmCpoNRouHJajU74S3LwSQwKeR",
                      assetName := "n", supply := 100, issuer := "i", reference := "ref",
                      assetType := ⟨strEncode "Fractional", some 3⟩ }
      ∧ ∃ bs, CreateAssetHeader.to_binary
            { assetAddr := "6JzvLVHGpuPCGo7jenYmCpoNRouHJajU74S3LwSQwKeR",
              assetName := "n", supply := 100, issuer := "i", reference := "ref",
              assetType := ⟨strEncode "Fractional", some 3⟩ } = some bs
          ∧ bs.length = 64
          ∧ bs.drop 52 = packH 10 ++ strEncode "Fractional" := by
  refine ⟨rfl, _, rfl, by decide, by decide⟩

/-- C3: `BindHeader.to_binary` emits the two addresses as the UTF-8 bytes of
their base58 text (null-padded to 32), not as the base58-decoded raw 32
bytes: for the address of 32 ones the emitted field is 32 bytes of 0x31
(the character `1`), while its base58 decoding is 32 zero bytes. -/
theorem bindHeader_to_binary_packs_base58_text :
    BindHeader.to_binary ⟨"11111111111111111111111111111111",
        "11111111111111111111111111111111", [171]⟩
        = packH TxTypeBind ++ List.replicate 32 49 ++ List.replicate 32 49 ++ [171]
      ∧ b58decode "11111111111111111111111111111111" = some (List.replicate 32 0)
      ∧ List.replicate 32 49 ≠ List.replicate 32 (0 : Nat) := by
  refine ⟨by decide, by decide, by decide⟩

/-- C4: the 2-byte length prefix of a Msg encoding is `len(contents)` — the
character count — and the UTF-8 payload is truncated to that count: for the
one-character text é, whose UTF-8 encoding is the two bytes [195, 169], the
encoder emits length 1 and the single byte 195. -/
theorem vmsg_to_binary_length_prefix_char_count :
    VMsg.to_binary "é" = packb VTypeMsg ++ [0, 1] ++ [195]
      ∧ strEncode "é" = [195, 169]
      ∧ (strEncode "é").length = 2 := by
  refine ⟨by decide, by decide, by decide⟩

/-- C5: `VDateTime.to_binary` never returns bytes: the seventh `Q` argument of
the pack is `contents.tzinfo`, which is `None` for a naive datetime and a
`tzinfo` object for an aware one — in neither case the integer the format
requires — so every call fails with struct.error. -/
theorem vdatetime_to_binary_always_errors (d : PyDateTime) :
    ∃ e, VDateTime.to_binary d = Except.error e := by
  obtain ⟨y, mo, da, ho, mi, se, us, tzo⟩ := d
  simp only [VDateTime.to_binary]
  apply exists_error_bind; intro b1
  apply exists_error_bind; intro b2
  apply exists_error_bind; intro b3
  apply exists_error_bind; intro b4
  apply exists_error_bind; intro b5
  apply exists_error_bind; intro b6
  cases tzo with
  | none => exact ⟨"required argument is not an integer", rfl⟩
  | some off => exact ⟨"required argument is not an integer", rfl⟩

/-- C6: AssetType construction accepts a precision exactly when the kind is
Fractional and the precision is in 1..6; a Fractional kind with a precision
outside 1..6 (or missing) raises the invalid-precision error, a
non-Fractional kind with a non-null precision raises the
precision-not-allowed error, and any other kind raises the invalid-asset-type
error.  All of this happens in `AssetType.init`; `AssetType.to_binary` is a
total function and cannot fail. -/
theorem assetType_init_validation (t : String) (p : Option Int) :
    ((∃ a, AssetType.init t p = Except.ok a) ↔
        ((t = "Fractional" ∧ ∃ k : Int, p = some k ∧ 1 ≤ k ∧ k ≤ 6)
          ∨ ((t = "Discrete" ∨ t = "Binary") ∧ p = none)))
    ∧ (AssetType.init t p = Except.error AssetTypeError.invalidPrecision ↔
        (t = "Fractional" ∧ ∀ k : Int, p = some k → k < 1 ∨ 6 < k))
    ∧ (AssetType.init t p = Except.error AssetTypeError.precisionNotAllowed ↔
        ((t = "Discrete" ∨ t = "Binary") ∧ p ≠ none))
    ∧ (AssetType.init t p = Except.error (AssetTypeError.invalidAssetType t) ↔
        t ∉ ["Fractional", "Discrete", "Binary"]) := by
  have hmem : t ∈ ["Fractional", "Discrete", "Binary"] ↔
      (t = "Fractional" ∨ t = "Discrete" ∨ t = "Binary") := by simp
  unfold AssetType.init AssetFractional
  by_cases hm : t ∈ ["Fractional", "Discrete", "Binary"]
  · rw [if_pos hm]
    by_cases hf : t = "Fractional"
    · subst hf
      rw [if_pos rfl]
      cases p with
      | none => simp
      | some k =>
        have hc : (([1, 2, 3, 4, 5, 6] : List Int).contains k = true) ↔ (1 ≤ k ∧ k ≤ 6) := by
          simp [List.contains]
          omega
        dsimp only
        by_cases hk : ([1, 2, 3, 4, 5, 6] : List Int).contains k
        · rw [if_pos hk]
          have := hc.mp hk
          simp only [hm] at *
          constructor
          · simp [this]
          constructor
          · simp
            omega
          constructor
          · simp
          · simp
        · rw [if_neg hk]
          have : ¬ (1 ≤ k ∧ k ≤ 6) := fun h => hk (hc.mpr h)
          constructor
          · simp
            omega
          constructor
          · simp
            omega
          constructor
          · simp
          · simp
    · rw [if_neg hf]
      have hdb : t = "Discrete" ∨ t = "Binary" := by
        rcases hmem.mp hm with h | h | h
        · exact absurd h hf
        · exact Or.inl h
        · exact Or.inr h
      cases p with
      | none => simp [hf, hdb]
      | some k => simp [hf, hdb]
  · rw [if_neg hm]
    have h3 : ¬(t = "Fractional" ∨ t = "Discrete" ∨ t = "Binary") := fun h => hm (hmem.mpr h)
    push_neg at h3
    simp [hm, h3.1, h3.2.1, h3.2.2]

/-- C7: for every validly constructed AssetType value, `AssetType.to_binary`
emits a 2-byte length prefix followed by the UTF-8 kind name and appends an
8-byte signed precision field if and only if the kind is Fractional, making a
Fractional encoding exactly 8 bytes longer; Discrete and Binary encodings
carry no precision bytes. -/
theorem assetType_to_binary_layout (t : String) (p : Option Int) (a : AssetType)
    (h : AssetType.init t p = Except.ok a) :
    (a.type = "Fractional" →
        ∃ k : Int, a.precision = some k ∧
          AssetType.to_binary a
            = packH (strEncode a.type).length ++ strEncode a.type ++ packq k ∧
          (AssetType.to_binary a).length = 2 + (strEncode a.type).length + 8)
      ∧ (a.type ≠ "Fractional" →
          a.precision = none ∧
          AssetType.to_binary a = packH (strEncode a.type).length ++ strEncode a.type ∧
          (AssetType.to_binary a).length = 2 + (strEncode a.type).length) := by
  unfold AssetType.init AssetFractional at h
  by_cases hm : t ∈ ["Fractional", "Discrete", "Binary"]
  case neg => rw [if_neg hm] at h; exact absurd h (by simp)
  rw [if_pos hm] at h
  by_cases hf : t = "Fractional"
  · subst hf
    rw [if_pos rfl] at h
    cases p with
    | none => exact absurd h (by simp)
    | some k =>
      dsimp only at h
      by_cases hk : ([1, 2, 3, 4, 5, 6] : List Int).contains k
      · rw [if_pos hk] at h
        injection h with h2
        subst h2
        have henc : AssetType.to_binary ⟨"Fractional", some k⟩
            = packH (strEncode "Fractional").length ++ strEncode "Fractional" ++ packq k := by
          simp only [AssetType.to_binary]
          congr 1
        have hlen : (AssetType.to_binary ⟨"Fractional", some k⟩).length
            = 2 + (strEncode "Fractional").length + 8 := by
          rw [henc]
          simp [packH_length, packq_length]
          omega
        constructor
        · exact fun _ => ⟨k, rfl, henc, hlen⟩
        · exact fun hne => absurd rfl hne
      · rw [if_neg hk] at h
        exact absurd h (by simp)
  · rw [if_neg hf] at h
    cases p with
    | some k => exact absurd h (by simp)
    | none =>
      dsimp only at h
      injection h with h2
      subst h2
      have hdb : t = "Discrete" ∨ t = "Binary" := by
        simp only [List.mem_cons, List.not_mem_nil, or_false] at hm
        rcases hm with h' | h' | h'
        · exact absurd h' hf
        · exact Or.inl h'
        · exact Or.inr h'
      have henc : AssetType.to_binary ⟨t, none⟩
          = packH (strEncode t).length ++ strEncode t := by
        rcases hdb with rfl | rfl <;> decide
      have hlen : (AssetType.to_binary ⟨t, none⟩).length = 2 + (strEncode t).length := by
        rw [henc]
        simp [packH_length]
      constructor
      · exact fun hfa => absurd hfa hf
      · exact fun _ => ⟨rfl, henc, hlen⟩

/-- witness for C7: a Fractional asset type of precision 3 encodes with the
trailing 8-byte precision field, and a Discrete one encodes without it. -/
theorem assetType_to_binary_layout_witness :
    AssetType.to_binary ⟨"Fractional", some 3⟩
        = packH (strEncode "Fractional").length ++ strEncode "Fractional" ++ packq 3
      ∧ AssetType.to_binary ⟨"Discrete", none⟩
        = packH (strEncode "Discrete").length ++ strEncode "Discrete" := by
  constructor
  · obtain ⟨k, hk, henc, _⟩ :=
      (assetType_to_binary_layout "Fractional" (some 3) ⟨"Fractional", some 3⟩ rfl).1 rfl
    injection hk with hk2
    rw [← hk2] at henc
    exact henc
  · obtain ⟨_, henc, _⟩ :=
      (assetType_to_binary_layout "Discrete" none ⟨"Discrete", none⟩ rfl).2 (by decide)
    exact henc

/-- C8: a Transfer header whose asset address decodes to 32 zero bytes, whose
destination decodes to 32 bytes of 0xFF and whose balance is -5 encodes to
exactly 74 bytes: 2-byte tag, the two 32-byte address fields, and the balance
as the 8-byte two's-complement big-endian form of -5. -/
theorem transferAssetHeader_concrete_74_bytes (a b : String)
    (ha : b58decode a = some (List.replicate 32 0))
    (hb : b58decode b = some (List.replicate 32 255)) :
    TransferAssetHeader.to_binary ⟨a, b, -5⟩
        = some (packH TxTypeTransfer ++ List.replicate 32 0 ++ List.replicate 32 255
            ++ [255, 255, 255, 255, 255, 255, 255, 251])
      ∧ ∀ bs, TransferAssetHeader.to_binary ⟨a, b, -5⟩ = some bs → bs.length = 74 := by
  have h1 : TransferAssetHeader.to_binary ⟨a, b, -5⟩
      = some (packH TxTypeTransfer ++ List.replicate 32 0 ++ List.replicate 32 255
          ++ [255, 255, 255, 255, 255, 255, 255, 251]) := by
    simp only [TransferAssetHeader.to_binary, ha, hb, Option.bind_eq_bind, Option.bind_some]
    decide
  refine ⟨h1, fun bs hbs => ?_⟩
  rw [h1] at hbs
  injection hbs with h2
  rw [← h2]
  decide

/-- witness for C8: concrete base58 addresses decoding to 32 zero bytes and
to 32 bytes of 0xFF. -/
theorem transferAssetHeader_concrete_74_bytes_witness :
    b58decode "11111111111111111111111111111111" = some (List.replicate 32 0)
      ∧ b58decode "JEKNVnkbo3jma5nREBBJCDoXFVeKkD56V3xKrvRmWxFG" = some (List.replicate 32 255)
      ∧ (TransferAssetHeader.to_binary ⟨"11111111111111111111111111111111",
            "JEKNVnkbo3jma5nREBBJCDoXFVeKkD56V3xKrvRmWxFG", -5⟩
          = some (packH TxTypeTransfer ++ List.replicate 32 0 ++ List.replicate 32 255
              ++ [255, 255, 255, 255, 255, 255, 255, 251])
        ∧ ∀ bs, TransferAssetHeader.to_binary ⟨"11111111111111111111111111111111",
            "JEKNVnkbo3jma5nREBBJCDoXFVeKkD56V3xKrvRmWxFG", -5⟩ = some bs → bs.length = 74) :=
  ⟨by decide, by decide,
    transferAssetHeader_concrete_74_bytes _ _ (by decide) (by decide)⟩

/-- C9: signing is deterministic given a fixed nonce — with the same key and
the same fixed nonce the signature does not depend on the signer's entropy —
and the bytes fed to the signer are exactly the header's canonical binary
form: the signature depends on the header only through `to_binary`. -/
theorem serializable_sign_deterministic_fixed_nonce {α : Type} (to_binary : α → List Nat)
    (h₁ h₂ : α) (privkey n e₁ e₂ : Nat) :
    Serializable.sign to_binary h₁ privkey (some n) e₁
        = Serializable.sign to_binary h₁ privkey (some n) e₂
      ∧ (to_binary h₁ = to_binary h₂ →
          Serializable.sign to_binary h₁ privkey (some n) e₁
            = Serializable.sign to_binary h₂ privkey (some n) e₂) := by
  constructor
  · rfl
  · intro hbytes
    simp only [Serializable.sign, ecdsa_sign, hbytes]

/-- witness for C9: signing a concrete Bind header twice with fixed nonce 7
under different entropy yields the identical signature. -/
theorem serializable_sign_deterministic_fixed_nonce_witness :
    Serializable.sign BindHeader.to_binary ⟨"a", "c", []⟩ 5 (some 7) 0
      = Serializable.sign BindHeader.to_binary ⟨"a", "c", []⟩ 5 (some 7) 1 :=
  (serializable_sign_deterministic_fixed_nonce BindHeader.to_binary
    ⟨"a", "c", []⟩ ⟨"a", "c", []⟩ 5 7 0 1).1

/-- C10: every AssetRef constructed from one of the six recognized references
succeeds, holding only the attribute `ref`, and calling `to_binary` on it
raises AttributeError and never returns bytes, because the encoder reads the
attribute `type` that the constructor never assigns. -/
theorem assetRef_to_binary_raises_attribute_error (r : String)
    (hr : r ∈ ["USD", "GBP", "EUR", "CHF", "Token", "Security"]) :
    AssetRef.init r = Except.ok [("ref", r)]
      ∧ AssetRef.to_binary [("ref", r)] = Except.error ("AttributeError: " ++ "type") := by
  constructor
  · simp [AssetRef.init, hr]
  · rfl

/-- witness for C10: the USD reference constructs, and its encoder fails with
the AttributeError. -/
theorem assetRef_to_binary_raises_attribute_error_witness :
    ("USD" ∈ ["USD", "GBP", "EUR", "CHF", "Token", "Security"])
      ∧ (AssetRef.init "USD" = Except.ok [("ref", "USD")]
        ∧ AssetRef.to_binary [("ref", "USD")] = Except.error ("AttributeError: " ++ "type")) :=
  ⟨by decide, assetRef_to_binary_raises_attribute_error "USD" (by decide)⟩
